import Mathlib

/-!
Verification of the acquisition-and-durability pipeline of the PLC data
logger (`plc_logger_main.py`) against its natural-language specification.

The Python source is shallowly embedded: each relevant method becomes a
pure Lean function over an explicit state.  File I/O is modelled by an
explicit in-memory file system (`FS`); points where the OS or the device
can fail are modelled by explicit outcome parameters (e.g. `diskOk`,
per-attempt device outcomes), mirroring exactly which Python statements
can raise inside which `try` block.
-/

namespace PLCLogger

/-- `HISTORY_LIMIT = 500` from the source header. -/
def HISTORY_LIMIT : Nat := 500

/-- `BATCH_SIZE = 10` from the source header. -/
def BATCH_SIZE : Nat := 10

/-- `MIN_DISK_SPACE_GB = 1` from the source header. -/
def MIN_DISK_SPACE_GB : Nat := 1

/-- A Python runtime value as it occurs in a Sample dict or a record
handed to the buffered writer: `None`, a bool, an int, or a string.
(Device read values are opaque to the logger; this concrete domain is
enough for everything the writer does with them, namely `str()`.) -/
inductive PyVal where
  | none
  | bool (b : Bool)
  | int (n : Int)
  | str (s : String)
deriving DecidableEq, Repr

/-- Python `str()` on the modelled value domain: `str(None) = "None"`,
`str(True) = "True"`, `str(False) = "False"`, ints and strings as usual. -/
def pyStr : PyVal → String
  | .none => "None"
  | .bool true => "True"
  | .bool false => "False"
  | .int n => toString n
  | .str s => s

/-- A record (Python dict) as an association list; first match wins,
which agrees with dict lookup for the insert-with-overwrite builder
`dictInsert` below. -/
def Record : Type := List (String × PyVal)

/-- `record.get(col)` as an `Option`. -/
def dictGet (record : List (String × PyVal)) (col : String) : Option PyVal :=
  (record.find? (fun p => p.1 = col)).map (fun p => p.2)

/-- One CSV cell of a serialized record: `str(record.get(col, ""))`
from `BufferedFileWriter.add_record` — the default `""` stringifies to
the empty string, while a present value `v` (including `None`)
stringifies to `str(v)`. -/
def serialize_cell (record : List (String × PyVal)) (col : String) : String :=
  match dictGet record col with
  | some v => pyStr v
  | Option.none => ""

/-- In-memory model of the file system: a list of files, each a path
with its CSV rows. -/
structure FS where
  files : List (String × List (List String))
deriving DecidableEq, Repr

/-- `os.path.exists`. -/
def FS.pathExists (fs : FS) (name : String) : Bool :=
  fs.files.any (fun p => p.1 = name)

/-- The rows of a file, if it exists. -/
def FS.rows (fs : FS) (name : String) : Option (List (List String)) :=
  (fs.files.find? (fun p => p.1 = name)).map (fun p => p.2)

/-- `open(name, 'w')` + write `rows`: create a fresh file. -/
def FS.create (fs : FS) (name : String) (rows : List (List String)) : FS :=
  ⟨fs.files ++ [(name, rows)]⟩

/-- `open(name, 'a')` + `writer.writerows(rows)`: append rows, creating
the file if it does not exist (append mode creates). -/
def FS.append (fs : FS) (name : String) (rows : List (List String)) : FS :=
  if fs.pathExists name then
    ⟨fs.files.map (fun p => if p.1 = name then (p.1, p.2 ++ rows) else p)⟩
  else
    ⟨fs.files ++ [(name, rows)]⟩

/-- The mutable state of `BufferedFileWriter`: the row buffer, the last
flush time, the active file and the active header. -/
structure WriterState where
  buffer : List (List String)
  last_flush : Int
  current_file : Option String
  header : Option (List String)
deriving DecidableEq, Repr

/-- `BufferedFileWriter.set_file(filename, header)`: record the active
file and header; create the file with the header as its only row when
it does not exist, and do nothing to the file system when it does. -/
def set_file (fs : FS) (st : WriterState) (filename : String)
    (header : List String) : FS × WriterState :=
  let st1 : WriterState :=
    { st with current_file := some filename, header := some header }
  if fs.pathExists filename then (fs, st1)
  else (fs.create filename [header], st1)

/-- `BufferedFileWriter.flush()`.  `diskOk` models whether the
`open`/`writerows` call inside the `try` succeeds; on failure the
exception is caught and logged, so the buffer and `last_flush` are left
untouched and nothing propagates to the caller.  The returned `Bool`
records whether an exception escaped `flush` (it never does). -/
def flush (fs : FS) (st : WriterState) (now : Int) (diskOk : Bool) :
    FS × WriterState × Bool :=
  match st.current_file with
  | Option.none => (fs, st, false)
  | some f =>
    if st.buffer.isEmpty then (fs, st, false)
    else if diskOk then
      (fs.append f st.buffer, { st with buffer := [], last_flush := now }, false)
    else
      (fs, st, false)

/-- `BufferedFileWriter.add_record(record, header)`: serialize the
record against the header, append the row to the buffer, then
auto-flush when the buffer holds at least `BATCH_SIZE` rows or more
than 60 seconds passed since the last flush.  The whole body is inside
`try/except`, so the returned exception flag is always `false`. -/
def add_record (fs : FS) (st : WriterState) (record : List (String × PyVal))
    (header : List String) (now : Int) (diskOk : Bool) :
    FS × WriterState × Bool :=
  let row := header.map (serialize_cell record)
  let st1 : WriterState := { st with buffer := st.buffer ++ [row] }
  if BATCH_SIZE ≤ st1.buffer.length ∨ 60 < now - st1.last_flush then
    flush fs st1 now diskOk
  else
    (fs, st1, false)

/-- The write step of one cycle of `_logging_thread` (lines 500–507):
`add_record` is called when there is a current file, inside a
`try/except` whose handler would call `_create_new_logfile`.  The
returned `Bool` records whether that handler ran (it runs only if
`add_record` raises, which it never does). -/
def cycle_write_step (fs : FS) (st : WriterState)
    (current_filename : Option String) (record : List (String × PyVal))
    (header : List String) (now : Int) (diskOk : Bool) :
    FS × WriterState × Bool :=
  match current_filename with
  | Option.none => (fs, st, false)
  | some _ =>
    let r := add_record fs st record header now diskOk
    if r.2.2 then (r.1, r.2.1, true) else (r.1, r.2.1, false)

/-- The history append of `_logging_thread` (lines 483–491): when the
queue already holds at least `HISTORY_LIMIT` samples, one oldest sample
is removed (`get_nowait`), then the new sample is put at the back. -/
def append_sample {α : Type} (h : List α) (s : α) : List α :=
  (if HISTORY_LIMIT ≤ h.length then h.tail else h) ++ [s]

/-- What the error branch of `_logging_thread` (lines 516–533) decides
after an uncaught cycle exception. -/
inductive ErrorAction where
  | stop
  | backoff (seconds : Nat)
deriving DecidableEq, Repr

/-- `max_consecutive_errors = 5` from `_logging_thread`. -/
def max_consecutive_errors : Nat := 5

/-- `error_delay = 30` from `_logging_thread`. -/
def error_delay : Nat := 30

/-- The error branch of `_logging_thread`, given the just-incremented
consecutive-error count `n`: at `max_consecutive_errors` the circuit
breaker trips (`stop_logging` is called and the loop breaks), otherwise
the loop backs off for `error_delay * 2^(n-1)` seconds. -/
def error_step (n : Nat) : ErrorAction :=
  if max_consecutive_errors ≤ n then ErrorAction.stop
  else ErrorAction.backoff (error_delay * 2 ^ (n - 1))

/-- The interruptible one-second sleep loop used for backoff (and for
`_wait_for_next_sample`): `for _ in range(t): if stop_event.is_set():
break; time.sleep(1)`.  `stopSet e` tells whether the cancellation
event is set once `e` seconds have elapsed; the result is the number of
seconds actually slept. -/
def sleep_loop (stopSet : Nat → Bool) : Nat → Nat → Nat
  | 0, slept => slept
  | n + 1, slept => if stopSet slept then slept else sleep_loop stopSet n (slept + 1)

/-- `PLCDataLogger._check_file_rotation`.  `fsHasFile` models
`os.path.exists(current_filename)`; `sizeRes` models `os.path.getsize`
(`Option.none` = the probe raised, caught by the `except` which rotates
to be safe). -/
def check_file_rotation (current_filename : Option String) (fsHasFile : Bool)
    (sizeRes : Option Nat) (now last_file_time save_interval : Int) : Bool :=
  match current_filename with
  | Option.none => true
  | some _ =>
    if !fsHasFile then true
    else
      match sizeRes with
      | Option.none => true
      | some sz =>
        if 100 * 1024 * 1024 < sz then true
        else if save_interval ≤ now - last_file_time then true
        else false

/-- `PLCDataLogger._check_system_resources`.  The disk probe runs only
when more than an hour passed since `last_disk_check`; `probe` models
`os.statvfs` giving `(f_bavail, f_frsize)`, with `Option.none` meaning
the probe raised, which the outer `except` turns into `True` (fail
open).  Returns the boolean result and the updated `last_disk_check`.
The memory probe only logs and cannot change the result.  The float
division `free_gb = bavail * frsize / 1024**3` is modelled exactly over
`ℚ`. -/
def check_system_resources (now last_disk_check : Int)
    (probe : Option (Nat × Nat)) : Bool × Int :=
  if 3600 < now - last_disk_check then
    match probe with
    | Option.none => (true, last_disk_check)
    | some (bavail, frsize) =>
      if ((bavail * frsize : ℚ) / 1024 ^ 3) < (MIN_DISK_SPACE_GB : ℚ) then
        (false, last_disk_check)
      else (true, now)
  else (true, last_disk_check)

/-- A pylogix read response as used by `_read_plc_data`: a status
string (compared against "Success") and a value, opaque to the logger
(type parameter `V`). -/
structure PlcResponse (V : Type) where
  status : String
  value : V
deriving DecidableEq, Repr

/-- A value of the Sample dict built by `_read_plc_data`: the ISO
timestamp string under the "timestamp" key, a device value for a
successful point read, or `None` for a failed one. -/
inductive DVal (V : Type) where
  | null
  | val (v : V)
  | tstamp (s : String)
deriving DecidableEq, Repr

/-- Python dict assignment `d[k] = v`: overwrite in place when the key
is present, append otherwise. -/
def dictInsert {β : Type} (k : String) (v : β) :
    List (String × β) → List (String × β)
  | [] => [(k, v)]
  | p :: rest => if p.1 = k then (k, v) :: rest else p :: dictInsert k v rest

/-- Python dict lookup `d[k]`. -/
def dictLookup {β : Type} (k : String) : List (String × β) → Option β
  | [] => Option.none
  | p :: rest => if p.1 = k then some p.2 else dictLookup k rest

/-- The composite column key `f"{ip}_{tag}"`. -/
def pointKey (ip tag : String) : String := ip ++ "_" ++ tag

/-- The outcome of one attempt of the per-device read loop in
`_read_plc_data`: either the whole batched read sequence completes and
yields one response per configured tag (pylogix returns one response
per requested tag), or an exception occurs after the responses of an
initial segment of the tags were already processed and stored. -/
inductive AttemptOutcome (V : Type) where
  | ok (rs : List (PlcResponse V))
  | failed (pre : List (PlcResponse V))
deriving DecidableEq, Repr

/-- How one response is recorded in the Sample: `result.Value` when
`result.Status == "Success"`, `None` otherwise. -/
def record_response {V : Type} (r : PlcResponse V) : DVal V :=
  if r.status = "Success" then DVal.val r.value else DVal.null

/-- Store a sequence of responses for the leading tags of `tags`:
`data_point[f"{ip}_{batch[j]}"] = ...`, response by response, in order
(the batches of size `BATCH_SIZE` concatenate to this sequence). -/
def write_responses {V : Type} (ip : String) (tags : List String)
    (rs : List (PlcResponse V)) (dp : List (String × DVal V)) :
    List (String × DVal V) :=
  (List.zip tags rs).foldl
    (fun d tr => dictInsert (pointKey ip tr.1) (record_response tr.2) d) dp

/-- `for tag in tags_to_read: data_point[f"{ip}_{tag}"] = None` — the
branch of `_read_plc_data` taken when all retries for a device are
exhausted. -/
def mark_all_failed {V : Type} (ip : String) (tags : List String)
    (dp : List (String × DVal V)) : List (String × DVal V) :=
  tags.foldl (fun d t => dictInsert (pointKey ip t) (DVal.null : DVal V) d) dp

/-- `max_retries = 3` from `_read_plc_data`. -/
def max_retries : Nat := 3

/-- The retry loop of `_read_plc_data` for one device, on a run where
the cancellation event is never set.  `attempt k` is the outcome of the
k-th attempt (0-based); `fuel` is the number of attempts still allowed
(`max_retries - retries`).  A successful attempt stores all its
responses and leaves the loop; a failed attempt stores the responses
processed before the exception, then either retries (after the
interruptible progressive-backoff sleep, which does not change the
Sample) or, when no attempts remain, marks every tag of the device as
failed. -/
def read_device_loop {V : Type} (ip : String) (tags : List String)
    (attempt : Nat → AttemptOutcome V) :
    Nat → Nat → List (String × DVal V) → List (String × DVal V)
  | 0, _, dp => dp
  | fuel + 1, k, dp =>
    match attempt k with
    | .ok rs => write_responses ip tags rs dp
    | .failed pre =>
      let dp1 := write_responses ip tags pre dp
      if fuel = 0 then mark_all_failed ip tags dp1
      else read_device_loop ip tags attempt fuel (k + 1) dp1

/-- One device of `_read_plc_data`: when no tags are configured for the
address the loop `break`s at once, otherwise the retry loop runs with
`max_retries` attempts. -/
def read_device {V : Type} (ip : String) (tags : List String)
    (attempt : Nat → AttemptOutcome V) (dp : List (String × DVal V)) :
    List (String × DVal V) :=
  if tags.isEmpty then dp
  else read_device_loop ip tags attempt max_retries 0 dp

/-- `PLCDataLogger._read_plc_data` on a run where the cancellation
event is never set: start from `{"timestamp": datetime.now().isoformat()}`
and run the per-device retry loop for each configured address in
order. -/
def read_plc_data {V : Type} (ips : List String)
    (tags_to_log : String → List String)
    (attempt : String → Nat → AttemptOutcome V) (ts : String) :
    List (String × DVal V) :=
  ips.foldl (fun dp ip => read_device ip (tags_to_log ip) (attempt ip) dp)
    [("timestamp", DVal.tstamp ts)]

/-- The responses of the first attempt (among `fuel` attempts starting
at index `k`) that completes without an exception, if any — the
declarative description of where the per-device loop stops. -/
def first_success {V : Type} (attempt : Nat → AttemptOutcome V) :
    Nat → Nat → Option (List (PlcResponse V))
  | 0, _ => Option.none
  | fuel + 1, k =>
    match attempt k with
    | .ok rs => some rs
    | .failed _ => first_success attempt fuel (k + 1)

/-- A file as seen by the retention sweep: its name and modification
time (epoch seconds). -/
structure CFile where
  name : String
  mtime : Int
deriving DecidableEq, Repr

/-- Numeric value of a digit string. -/
def digitsToNat (l : List Char) : Nat :=
  l.foldl (fun a c => a * 10 + (c.toNat - '0'.toNat)) 0

/-- Gregorian leap year. -/
def is_leap (y : Nat) : Bool :=
  y % 4 = 0 && (y % 100 != 0 || y % 400 = 0)

/-- Days in a month. -/
def days_in_month (y m : Nat) : Nat :=
  if m = 2 then (if is_leap y then 29 else 28)
  else if m = 4 ∨ m = 6 ∨ m = 9 ∨ m = 11 then 30
  else 31

/-- Days from 1970-01-01 to the start of year `y` (for `y ≥ 1970`, the
only range the logger generates file names in). -/
def days_before_year (y : Nat) : Nat :=
  (List.range (y - 1970)).foldl
    (fun a i => a + (if is_leap (1970 + i) then 366 else 365)) 0

/-- Days from the start of the year to the start of month `m`. -/
def days_before_month (y m : Nat) : Nat :=
  (List.range (m - 1)).foldl (fun a i => a + days_in_month y (i + 1)) 0

/-- POSIX timestamp of `y-m-d hh:mi:ss` (the naive datetimes of the
logger compare exactly like their timestamps). -/
def epoch_of (y m d hh mi ss : Nat) : Int :=
  ((days_before_year y + days_before_month y m + (d - 1)) * 86400
    + hh * 3600 + mi * 60 + ss : Nat)

/-- `datetime.strptime(s, "%Y%m%d_%H%M%S")` on the zero-padded
timestamps the logger writes into file names: exactly `YYYYMMDD_HHMMSS`
with a calendar-valid date, else a `ValueError` (`Option.none`). -/
def strptime_full (s : String) : Option Int :=
  let cs := s.data
  if cs.length = 15 ∧ (cs.take 8).all Char.isDigit
      ∧ cs.get? 8 = some '_' ∧ (cs.drop 9).all Char.isDigit then
    let y := digitsToNat (cs.take 4)
    let m := digitsToNat ((cs.drop 4).take 2)
    let d := digitsToNat ((cs.drop 6).take 2)
    let hh := digitsToNat ((cs.drop 9).take 2)
    let mi := digitsToNat ((cs.drop 11).take 2)
    let ss := digitsToNat ((cs.drop 13).take 2)
    if 1970 ≤ y ∧ 1 ≤ m ∧ m ≤ 12 ∧ 1 ≤ d ∧ d ≤ days_in_month y m
        ∧ hh ≤ 23 ∧ mi ≤ 59 ∧ ss ≤ 59 then
      some (epoch_of y m d hh mi ss)
    else Option.none
  else Option.none

/-- `datetime.strptime(s, "%Y%m%d")` (the fallback format): exactly
`YYYYMMDD` with a calendar-valid date. -/
def strptime_ymd (s : String) : Option Int :=
  let cs := s.data
  if cs.length = 8 ∧ cs.all Char.isDigit then
    let y := digitsToNat (cs.take 4)
    let m := digitsToNat ((cs.drop 4).take 2)
    let d := digitsToNat ((cs.drop 6).take 2)
    if 1970 ≤ y ∧ 1 ≤ m ∧ m ≤ 12 ∧ 1 ≤ d ∧ d ≤ days_in_month y m then
      some (epoch_of y m d 0 0 0)
    else Option.none
  else Option.none

/-- `file.stem` of a `*.csv` path: the name without its last suffix
(the last four characters, `.csv`). -/
def csv_stem (name : String) : String :=
  ⟨name.data.take (name.data.length - 4)⟩

/-- `file.with_suffix('.csv.gz')` on a `*.csv` path. -/
def gz_name (name : String) : String := csv_stem name ++ ".csv.gz"

/-- Whether a name matches the glob `plc_data_*.csv` used by
`cleanup_old_data`: it starts with `plc_data_` and ends with `.csv`
(the two cannot overlap, so this is exactly the glob; in particular no
`*.csv.gz` file matches). -/
def is_raw_log (name : String) : Bool :=
  decide (name.data.take 9 = "plc_data_".data)
  && decide (4 ≤ name.data.length)
  && decide (name.data.drop (name.data.length - 4) = ".csv".data)

/-- Python `str.split('_')` over the character list: split at every
underscore, keeping empty pieces (the semantics of
`stem.split('_')`). -/
def split_us : List Char → List (List Char)
  | [] => [[]]
  | c :: rest =>
    match split_us rest with
    | [] => [[]]
    | g :: gs => if c = '_' then [] :: g :: gs else (c :: g) :: gs

/-- Python `'_'.join(...)` over character lists. -/
def join_us : List (List Char) → List Char
  | [] => []
  | [g] => g
  | g :: gs => g ++ '_' :: join_us gs

/-- Date recovery of `cleanup_old_data`: take the last two
underscore-separated parts of the stem, try `"%Y%m%d_%H%M%S"` on their
joining, fall back to `"%Y%m%d"` on the first of them, else give up
(the file is skipped with a warning). -/
def parse_file_date (name : String) : Option Int :=
  let parts := split_us (csv_stem name).data
  let date_str := parts.drop (parts.length - 2)
  if 2 ≤ date_str.length then
    match strptime_full ⟨join_us date_str⟩ with
    | some t => some t
    | Option.none =>
      match date_str with
      | s0 :: _ => strptime_ymd ⟨s0⟩
      | [] => Option.none
  else Option.none

/-- `os.path.exists`-style check on the sweep file system. -/
def cfs_exists (fs : List CFile) (name : String) : Bool :=
  fs.any (fun f => f.name = name)

/-- `stat().st_mtime` on the sweep file system. -/
def cfs_mtime (fs : List CFile) (name : String) : Option Int :=
  (fs.find? (fun f => f.name = name)).map (fun f => f.mtime)

/-- `unlink()` on the sweep file system. -/
def cfs_delete (fs : List CFile) (name : String) : List CFile :=
  fs.filter (fun f => f.name ≠ name)

/-- Creating a file on the sweep file system (its mtime is the time of
the write). -/
def cfs_create (fs : List CFile) (name : String) (mtime : Int) : List CFile :=
  fs ++ [⟨name, mtime⟩]

/-- The per-file body of `cleanup_old_data` on an error-free file
system, for one globbed raw file `f`: recover the date from the file
name (skip the file when that fails); when it is older than the
cutoff, write the compressed copy and delete the original — but only
when no compressed copy already exists (the `unlink` sits inside that
guard, and no non-emptiness check of the copy is performed) — then
delete the compressed copy when its own mtime is older than the
cutoff. -/
def cleanup_step (now cutoff : Int) (fs : List CFile) (f : CFile) :
    List CFile :=
  match parse_file_date f.name with
  | Option.none => fs
  | some t =>
    if t < cutoff then
      let gz := gz_name f.name
      let fs1 := if cfs_exists fs gz then fs
                 else cfs_delete (cfs_create fs gz now) f.name
      match cfs_mtime fs1 gz with
      | some mt => if mt < cutoff then cfs_delete fs1 gz else fs1
      | Option.none => fs1
    else fs

/-- `PLCDataLogger.cleanup_old_data` over one log directory: glob
`plc_data_*.csv` and run the per-file body on every match, with the
cutoff `datetime.now() - timedelta(days=retention_days)` computed once
(all times in epoch seconds; a compressed copy written by the sweep
gets mtime `now`). -/
def cleanup_old_data (fs : List CFile) (now retention_days : Int) :
    List CFile :=
  let cutoff := now - retention_days * 86400
  (fs.filter (fun f => is_raw_log f.name)).foldl (cleanup_step now cutoff) fs

/-! ## Helper lemmas -/

/-- `flush` never lets an exception escape: its whole body is wrapped
in `try/except`. -/
theorem flush_snd_false (fs : FS) (st : WriterState) (now : Int)
    (diskOk : Bool) : (flush fs st now diskOk).2.2 = false := by
  unfold flush
  cases st.current_file
  · rfl
  · dsimp only
    split_ifs <;> rfl

/-- A failing disk write leaves `flush` a complete no-op (state kept,
nothing propagated). -/
theorem flush_disk_fail (fs : FS) (st : WriterState) (now : Int) :
    flush fs st now false = (fs, st, false) := by
  unfold flush
  cases st.current_file
  · rfl
  · dsimp only
    split_ifs with h1 h2
    · rfl
    · exact h2.elim
    · rfl

/-- `add_record` never lets an exception escape: its whole body is
wrapped in `try/except`. -/
theorem add_record_snd_false (fs : FS) (st : WriterState)
    (record : List (String × PyVal)) (header : List String) (now : Int)
    (diskOk : Bool) : (add_record fs st record header now diskOk).2.2 = false := by
  unfold add_record
  dsimp only
  split_ifs
  · exact flush_snd_false _ _ _ _
  · rfl

/-- The error handler of the cycle write step (which would create a new
log file) is unreachable: `add_record` never raises. -/
theorem cycle_write_step_no_new_file (fs : FS) (st : WriterState)
    (cf : Option String) (record : List (String × PyVal))
    (header : List String) (now : Int) (diskOk : Bool) :
    (cycle_write_step fs st cf record header now diskOk).2.2 = false := by
  unfold cycle_write_step
  cases cf
  · rfl
  · dsimp only
    rw [add_record_snd_false]
    rfl

/-- A freshly created file exists. -/
theorem pathExists_create (fs : FS) (n : String) (r : List (List String)) :
    (fs.create n r).pathExists n = true := by
  simp [FS.create, FS.pathExists]

/-- Creating a file that did not exist makes its rows readable. -/
theorem rows_create (fs : FS) (n : String) (r : List (List String))
    (h : fs.pathExists n = false) : (fs.create n r).rows n = some r := by
  unfold FS.create FS.rows
  unfold FS.pathExists at h
  rw [List.find?_append]
  have hnone : fs.files.find? (fun p => p.1 = n) = Option.none := by
    rw [List.find?_eq_none]
    intro x hx
    simp only [List.any_eq_false] at h
    have := h x hx
    simpa using this
  rw [hnone]
  simp

/-- The backoff/sampling sleep loop with the cancellation event never
set sleeps for the full duration. -/
theorem sleep_loop_no_cancel (stopSet : Nat → Bool)
    (hs : ∀ e, stopSet e = false) :
    ∀ t slept : Nat, sleep_loop stopSet t slept = slept + t := by
  intro t
  induction t with
  | zero => intro slept; simp [sleep_loop]
  | succ n ih =>
    intro slept
    rw [sleep_loop, hs]
    simp only [Bool.false_eq_true, if_false]
    rw [ih]
    omega

/-- The sleep loop with the cancellation event becoming set after `c`
seconds sleeps `min` of the duration and `c`. -/
theorem sleep_loop_cancel (stopSet : Nat → Bool) (c : Nat)
    (hs : ∀ e, stopSet e = decide (c ≤ e)) :
    ∀ t slept : Nat, slept ≤ c → sleep_loop stopSet t slept = min (slept + t) c := by
  intro t
  induction t with
  | zero => intro slept h; rw [sleep_loop]; omega
  | succ n ih =>
    intro slept h
    rw [sleep_loop, hs]
    by_cases hc : c ≤ slept
    · rw [if_pos (by simpa using hc)]
      omega
    · rw [if_neg (by simpa using hc)]
      rw [ih (slept + 1) (by omega)]
      omega

/-! ## Claim theorems -/

/-- Claim C9: when the disk append inside `flush()` raises, the
exception is caught after the write attempt and before the
buffer-clearing and `last_flush` update, so the writer state is exactly
as before: the buffered rows are retained and `last_flush` unchanged,
ready to be re-attempted at the next flush. -/
theorem claim_C9_flush_failure_preserves_state (fs : FS) (st : WriterState)
    (now : Int) (f : String) (hf : st.current_file = some f)
    (hb : st.buffer ≠ []) :
    flush fs st now false = (fs, st, false) :=
  flush_disk_fail fs st now

/-- Witness for C9 at a concrete writer state with one buffered row. -/
theorem claim_C9_witness :
    WriterState.current_file ⟨[["r"]], 0, some "f.csv", some ["h"]⟩ = some "f.csv"
    ∧ flush ⟨[]⟩ ⟨[["r"]], 0, some "f.csv", some ["h"]⟩ 5 false
        = (⟨[]⟩, ⟨[["r"]], 0, some "f.csv", some ["h"]⟩, false) :=
  ⟨rfl, claim_C9_flush_failure_preserves_state ⟨[]⟩
    ⟨[["r"]], 0, some "f.csv", some ["h"]⟩ 5 "f.csv" rfl (by decide)⟩

/-- Claim C2 counterexample: a concrete cycle in which the buffer
reaches `BATCH_SIZE`, the flush write fails (disk failure), and yet:
the file system is unchanged (the rows did not reach disk), the ten
rows are still buffered, and the step's error handler did not run
(third component `false`) — so no failure was reported to the cycle
loop and no new active file was created, contrary to the claim. -/
theorem claim_C2_counterexample :
    cycle_write_step ⟨[("f.csv", [["timestamp"]])]⟩
        ⟨List.replicate 9 ["x"], 0, some "f.csv", some ["timestamp"]⟩
        (some "f.csv") [("timestamp", PyVal.str "t")] ["timestamp"] 10 false
      = (⟨[("f.csv", [["timestamp"]])]⟩,
         ⟨List.replicate 9 ["x"] ++ [["t"]], 0, some "f.csv", some ["timestamp"]⟩,
         false) := by decide

/-- Claim C2 amended: a write failure inside `flush()` is caught and
only logged — nothing is reported to the scheduler: the flush leaves
the rows buffered and the file untouched, no exception escapes `flush`
or `add_record`, and the cycle loop's new-file-on-error branch never
runs for any input. -/
theorem claim_C2_amended (fs : FS) (st : WriterState) (now : Int)
    (f : String) (hf : st.current_file = some f) (hb : st.buffer ≠ []) :
    flush fs st now false = (fs, st, false)
    ∧ ∀ (fs2 : FS) (st2 : WriterState) (cf : Option String)
        (record : List (String × PyVal)) (header : List String)
        (now2 : Int) (diskOk : Bool),
        (cycle_write_step fs2 st2 cf record header now2 diskOk).2.2 = false :=
  ⟨flush_disk_fail fs st now,
   fun fs2 st2 cf record header now2 diskOk =>
     cycle_write_step_no_new_file fs2 st2 cf record header now2 diskOk⟩

/-- Witness for the amended C2 at a concrete failing flush. -/
theorem claim_C2_amended_witness :
    WriterState.current_file ⟨[["a"]], 3, some "g.csv", some ["h"]⟩ = some "g.csv"
    ∧ flush ⟨[]⟩ ⟨[["a"]], 3, some "g.csv", some ["h"]⟩ 9 false
        = (⟨[]⟩, ⟨[["a"]], 3, some "g.csv", some ["h"]⟩, false)
    ∧ (cycle_write_step ⟨[]⟩ ⟨[["a"]], 3, some "g.csv", some ["h"]⟩
        (some "g.csv") [] ["h"] 9 false).2.2 = false :=
  ⟨rfl,
   (claim_C2_amended ⟨[]⟩ ⟨[["a"]], 3, some "g.csv", some ["h"]⟩ 9 "g.csv" rfl
      (by decide)).1,
   (claim_C2_amended ⟨[]⟩ ⟨[["a"]], 3, some "g.csv", some ["h"]⟩ 9 "g.csv" rfl
      (by decide)).2 ⟨[]⟩ ⟨[["a"]], 3, some "g.csv", some ["h"]⟩ (some "g.csv")
      [] ["h"] 9 false⟩

/-- Claim C7: `set_file` creates a missing file with the header as its
only (hence first) row, leaves an existing file — and the whole file
system — completely unchanged, and calling it twice with the same
arguments equals calling it once. -/
theorem claim_C7_set_file_idempotent (fs : FS) (st : WriterState)
    (filename : String) (header : List String) :
    (fs.pathExists filename = false →
        (set_file fs st filename header).1 = fs.create filename [header]
        ∧ (set_file fs st filename header).1.rows filename = some [header])
    ∧ (fs.pathExists filename = true → (set_file fs st filename header).1 = fs)
    ∧ set_file (set_file fs st filename header).1
        (set_file fs st filename header).2 filename header
      = set_file fs st filename header := by
  refine ⟨?_, ?_, ?_⟩
  · intro h
    constructor
    · simp [set_file, h]
    · simp only [set_file, h, Bool.false_eq_true, if_false]
      exact rows_create fs filename [header] h
  · intro h
    simp [set_file, h]
  · by_cases h : fs.pathExists filename = true
    · simp [set_file, h]
    · have h0 : fs.pathExists filename = false := by
        cases hx : fs.pathExists filename
        · rfl
        · exact absurd hx h
      simp [set_file, h0, pathExists_create]

/-- Witness for C7: creating then re-setting a fresh file. -/
theorem claim_C7_witness :
    FS.pathExists ⟨[]⟩ "f.csv" = false
    ∧ (set_file ⟨[]⟩ ⟨[], 0, Option.none, Option.none⟩ "f.csv" ["timestamp"]).1.rows
        "f.csv" = some [["timestamp"]]
    ∧ set_file (set_file ⟨[]⟩ ⟨[], 0, Option.none, Option.none⟩ "f.csv" ["timestamp"]).1
        (set_file ⟨[]⟩ ⟨[], 0, Option.none, Option.none⟩ "f.csv" ["timestamp"]).2
        "f.csv" ["timestamp"]
      = set_file ⟨[]⟩ ⟨[], 0, Option.none, Option.none⟩ "f.csv" ["timestamp"] :=
  ⟨by decide,
   ((claim_C7_set_file_idempotent ⟨[]⟩ ⟨[], 0, Option.none, Option.none⟩ "f.csv"
      ["timestamp"]).1 (by decide)).2,
   (claim_C7_set_file_idempotent ⟨[]⟩ ⟨[], 0, Option.none, Option.none⟩ "f.csv"
      ["timestamp"]).2.2⟩

/-- Claim C6 counterexample: a record holding a failed read (`None`)
under a header key is serialized as the string "None", not as an empty
cell, contrary to the claim's value-or-empty description. -/
theorem claim_C6_counterexample :
    (add_record ⟨[]⟩ ⟨[], 0, some "f.csv", some ["timestamp", "ip_T"]⟩
        [("timestamp", PyVal.str "t0"), ("ip_T", PyVal.none)]
        ["timestamp", "ip_T"] 0 true).2.1.buffer
      = [["t0", "None"]]
    ∧ ["t0", "None"] ≠ ["t0", ""] := by decide

/-- Claim C6 amended: `add_record` appends exactly one row with one
cell per header column in header order; a header key absent from the
record yields the empty string, and a present value yields its Python
stringification — in particular a failed read stored as `None` is
written as the string "None", not as an empty cell.  (Stated below the
auto-flush threshold; at the threshold the same row is appended and the
buffer is then flushed.) -/
theorem claim_C6_amended (fs : FS) (st : WriterState)
    (record : List (String × PyVal)) (header : List String) (now : Int)
    (diskOk : Bool) (hbatch : st.buffer.length + 1 < BATCH_SIZE)
    (htime : now - st.last_flush ≤ 60) :
    (add_record fs st record header now diskOk).2.1.buffer
      = st.buffer ++ [header.map (serialize_cell record)]
    ∧ (add_record fs st record header now diskOk).1 = fs
    ∧ (∀ col, dictGet record col = Option.none → serialize_cell record col = "")
    ∧ (∀ col v, dictGet record col = some v → serialize_cell record col = pyStr v)
    ∧ pyStr PyVal.none = "None" := by
  have hlen : (st.buffer ++ [header.map (serialize_cell record)]).length
      = st.buffer.length + 1 := by simp
  have hcond : ¬ (BATCH_SIZE ≤ (st.buffer ++ [header.map (serialize_cell record)]).length
      ∨ 60 < now - st.last_flush) := by
    rw [hlen]
    push_neg
    exact ⟨hbatch, htime⟩
  refine ⟨?_, ?_, ?_, ?_, rfl⟩
  · unfold add_record
    simp only [hcond, if_neg, not_false_iff]
  · unfold add_record
    simp only [hcond, if_neg, not_false_iff]
  · intro col h
    unfold serialize_cell
    rw [h]
  · intro col v h
    unfold serialize_cell
    rw [h]

/-- Witness for the amended C6 at the record of the counterexample. -/
theorem claim_C6_amended_witness :
    ([] : List (List String)).length + 1 < BATCH_SIZE
    ∧ (add_record ⟨[]⟩ ⟨[], 0, some "f.csv", some ["timestamp", "ip_T"]⟩
        [("timestamp", PyVal.str "t0"), ("ip_T", PyVal.none)]
        ["timestamp", "ip_T"] 0 true).2.1.buffer
      = [] ++ [["timestamp", "ip_T"].map
          (serialize_cell [("timestamp", PyVal.str "t0"), ("ip_T", PyVal.none)])]
    ∧ pyStr PyVal.none = "None" :=
  ⟨by decide,
   (claim_C6_amended ⟨[]⟩ ⟨[], 0, some "f.csv", some ["timestamp", "ip_T"]⟩
      [("timestamp", PyVal.str "t0"), ("ip_T", PyVal.none)]
      ["timestamp", "ip_T"] 0 true (by decide) (by decide)).1,
   (claim_C6_amended ⟨[]⟩ ⟨[], 0, some "f.csv", some ["timestamp", "ip_T"]⟩
      [("timestamp", PyVal.str "t0"), ("ip_T", PyVal.none)]
      ["timestamp", "ip_T"] 0 true (by decide) (by decide)).2.2.2.2⟩

/-- Claim C4: an append keeps the history at or below `HISTORY_LIMIT`;
at exactly the limit precisely the oldest sample is evicted, below it
nothing is evicted — in both cases the retained samples keep insertion
order with the new sample last. -/
theorem claim_C4_history_bound (α : Type) (h : List α) (s : α)
    (hle : h.length ≤ HISTORY_LIMIT) :
    (append_sample h s).length ≤ HISTORY_LIMIT
    ∧ (h.length = HISTORY_LIMIT → append_sample h s = h.tail ++ [s])
    ∧ (h.length < HISTORY_LIMIT → append_sample h s = h ++ [s]) := by
  unfold append_sample
  refine ⟨?_, ?_, ?_⟩
  · split_ifs with hc
    · simp only [List.length_append, List.length_tail, List.length_cons,
        List.length_nil]
      unfold HISTORY_LIMIT at hle hc ⊢
      omega
    · simp only [List.length_append, List.length_cons, List.length_nil]
      unfold HISTORY_LIMIT at hle hc ⊢
      omega
  · intro he
    rw [if_pos (le_of_eq he.symm)]
  · intro hlt
    rw [if_neg (by unfold HISTORY_LIMIT at hlt ⊢; omega)]

/-- Witness for C4 at a history filled to exactly `HISTORY_LIMIT`. -/
theorem claim_C4_witness :
    (List.replicate HISTORY_LIMIT (0 : Nat)).length ≤ HISTORY_LIMIT
    ∧ (append_sample (List.replicate HISTORY_LIMIT (0 : Nat)) 1).length
        ≤ HISTORY_LIMIT
    ∧ ((List.replicate HISTORY_LIMIT (0 : Nat)).length = HISTORY_LIMIT →
        append_sample (List.replicate HISTORY_LIMIT (0 : Nat)) 1
          = (List.replicate HISTORY_LIMIT (0 : Nat)).tail ++ [1]) :=
  ⟨by simp,
   (claim_C4_history_bound Nat (List.replicate HISTORY_LIMIT 0) 1 (by simp)).1,
   (claim_C4_history_bound Nat (List.replicate HISTORY_LIMIT 0) 1 (by simp)).2.1⟩

/-- Claim C5: after the n-th consecutive cycle error with
`n < max_consecutive_errors` the loop backs off `error_delay * 2^(n-1)`
seconds (30, 60, 120, 240 for the default 30), the backoff sleep is
interruptible by cancellation at one-second granularity, and at
`max_consecutive_errors` the circuit breaker trips (`stop_logging` and
`break`: no further backoff or retry). -/
theorem claim_C5_backoff (n : Nat) (h1 : 1 ≤ n)
    (h2 : n < max_consecutive_errors) :
    error_step n = ErrorAction.backoff (error_delay * 2 ^ (n - 1))
    ∧ [error_step 1, error_step 2, error_step 3, error_step 4]
        = [ErrorAction.backoff 30, ErrorAction.backoff 60,
           ErrorAction.backoff 120, ErrorAction.backoff 240]
    ∧ error_step max_consecutive_errors = ErrorAction.stop
    ∧ (∀ stopSet : Nat → Bool, (∀ e, stopSet e = false) →
        sleep_loop stopSet (error_delay * 2 ^ (n - 1)) 0
          = error_delay * 2 ^ (n - 1))
    ∧ (∀ (stopSet : Nat → Bool) (c : Nat), (∀ e, stopSet e = decide (c ≤ e)) →
        sleep_loop stopSet (error_delay * 2 ^ (n - 1)) 0
          = min (error_delay * 2 ^ (n - 1)) c) := by
  refine ⟨?_, by decide, by decide, ?_, ?_⟩
  · unfold error_step
    rw [if_neg (by omega)]
  · intro stopSet hs
    have := sleep_loop_no_cancel stopSet hs (error_delay * 2 ^ (n - 1)) 0
    simpa using this
  · intro stopSet c hs
    have := sleep_loop_cancel stopSet c hs (error_delay * 2 ^ (n - 1)) 0
      (Nat.zero_le c)
    simpa using this

/-- Witness for C5 at the second consecutive error. -/
theorem claim_C5_witness :
    1 ≤ 2 ∧ 2 < max_consecutive_errors
    ∧ error_step 2 = ErrorAction.backoff (error_delay * 2 ^ (2 - 1))
    ∧ error_step max_consecutive_errors = ErrorAction.stop :=
  ⟨by decide, by decide, (claim_C5_backoff 2 (by decide) (by decide)).1,
   (claim_C5_backoff 2 (by decide) (by decide)).2.2.1⟩

/-- Claim C8: with an active file set, `_check_file_rotation` returns
true exactly when the file no longer exists, probing its size raises
(rotate-on-error), the size is above 100 MB, or the time since the file
was created (`last_file_time`) has reached `save_interval`.  The time
threshold is inclusive (`>=` in the source), matching the spec's own
boundary example that a file created at T rotates on or after
T + save_interval. -/
theorem claim_C8_rotation_iff (f : String) (fsHasFile : Bool)
    (sizeRes : Option Nat) (now last_file_time save_interval : Int) :
    check_file_rotation (some f) fsHasFile sizeRes now last_file_time
        save_interval = true
    ↔ fsHasFile = false ∨ sizeRes = Option.none
      ∨ (∃ sz, sizeRes = some sz ∧ 100 * 1024 * 1024 < sz)
      ∨ save_interval ≤ now - last_file_time := by
  unfold check_file_rotation
  cases fsHasFile
  · simp
  · cases sizeRes with
    | none => simp
    | some sz =>
      simp only [Bool.not_true, Bool.false_eq_true, if_false, Option.some.injEq]
      split_ifs with hsz htime
      · simp only [true_iff]
        right; right; left
        exact ⟨sz, rfl, hsz⟩
      · simp only [true_iff]
        right; right; right
        exact htime
      · simp only [Bool.false_eq_true, false_iff, not_or]
        refine ⟨by simp, by simp, ?_, htime⟩
        rintro ⟨sz2, hsz2, hgt⟩
        cases hsz2
        exact hsz hgt

/-- Claim C10: the resource check fails open — a raising probe yields
`True` — and it returns `False` exactly when the hourly disk check was
due and the probe completed reporting free space (in GB, the exact
rational `bavail * frsize / 1024³`) below `MIN_DISK_SPACE_GB`. -/
theorem claim_C10_resources (now last_disk_check : Int)
    (probe : Option (Nat × Nat)) :
    (check_system_resources now last_disk_check Option.none).1 = true
    ∧ ((check_system_resources now last_disk_check probe).1 = false
        ↔ 3600 < now - last_disk_check
          ∧ ∃ bavail frsize, probe = some (bavail, frsize)
              ∧ ((bavail * frsize : ℚ) / 1024 ^ 3) < (MIN_DISK_SPACE_GB : ℚ)) := by
  constructor
  · unfold check_system_resources
    split_ifs <;> rfl
  · unfold check_system_resources
    split_ifs with hdue
    · cases probe with
      | none => simp [hdue]
      | some p =>
        obtain ⟨ba, fr⟩ := p
        dsimp only
        by_cases hlow : ((ba * fr : ℚ) / 1024 ^ 3) < (MIN_DISK_SPACE_GB : ℚ)
        · rw [if_pos hlow]
          constructor
          · intro _
            exact ⟨hdue, ba, fr, rfl, hlow⟩
          · intro _
            rfl
        · rw [if_neg hlow]
          constructor
          · intro hcontra
            simp at hcontra
          · rintro ⟨-, ba2, fr2, heq, hlt⟩
            cases heq
            exact absurd hlt hlow
    · simp [hdue]

/-! ## Dict and key lemmas for the acquisition engine -/

/-- Looking up the key just inserted. -/
theorem dictLookup_insert_self {β : Type} (k : String) (v : β)
    (d : List (String × β)) : dictLookup k (dictInsert k v d) = some v := by
  induction d with
  | nil => simp [dictInsert, dictLookup]
  | cons p rest ih =>
    by_cases hp : p.1 = k
    · simp [dictInsert, hp, dictLookup]
    · simp [dictInsert, hp, dictLookup, ih]

/-- Inserting under a different key does not change a lookup. -/
theorem dictLookup_insert_ne {β : Type} (k kq : String) (v : β)
    (d : List (String × β)) (hne : kq ≠ k) :
    dictLookup kq (dictInsert k v d) = dictLookup kq d := by
  induction d with
  | nil => simp [dictInsert, dictLookup, Ne.symm hne]
  | cons p rest ih =>
    by_cases hp : p.1 = k
    · simp [dictInsert, hp, dictLookup, Ne.symm hne]
    · by_cases hq : p.1 = kq
      · simp [dictInsert, hp, dictLookup, hq, hne]
      · simp [dictInsert, hp, dictLookup, hq, ih]

/-- Two point keys of the same address agree only on the same tag. -/
theorem pointKey_inj_tag (ip t tq : String)
    (h : pointKey ip t = pointKey ip tq) : t = tq := by
  unfold pointKey at h
  have hd := congrArg String.data h
  rw [String.data_append, String.data_append, String.data_append,
    String.data_append] at hd
  exact String.ext (List.append_cancel_left hd)

/-- A list starting with an underscore-free prefix followed by an
underscore determines that prefix. -/
theorem underscore_split_inj (a : List Char) :
    ∀ (b t tq : List Char), ('_' : Char) ∉ a → ('_' : Char) ∉ b →
      a ++ '_' :: t = b ++ '_' :: tq → a = b := by
  induction a with
  | nil =>
    intro b t tq ha hb h
    cases b with
    | nil => rfl
    | cons c bs =>
      simp only [List.nil_append, List.cons_append, List.cons.injEq] at h
      exact absurd (h.1 ▸ List.mem_cons_self '_' bs) hb
  | cons c as ih =>
    intro b t tq ha hb h
    cases b with
    | nil =>
      simp only [List.cons_append, List.nil_append, List.cons.injEq] at h
      exact absurd (h.1 ▸ List.mem_cons_self '_' as) ha
    | cons cq bs =>
      simp only [List.cons_append, List.cons.injEq] at h
      have := ih bs t tq (fun hm => ha (List.mem_cons_of_mem c hm))
        (fun hm => hb (List.mem_cons_of_mem cq hm)) h.2
      rw [h.1, this]

/-- Point keys of different underscore-free addresses never collide
(the address is recoverable as the part before the first underscore). -/
theorem pointKey_inj_ip (ip ipq t tq : String)
    (hip : ('_' : Char) ∉ ip.data) (hipq : ('_' : Char) ∉ ipq.data)
    (hne : ip ≠ ipq) : pointKey ip t ≠ pointKey ipq tq := by
  intro h
  unfold pointKey at h
  have hd := congrArg String.data h
  rw [String.data_append, String.data_append, String.data_append,
    String.data_append] at hd
  rw [List.append_assoc, List.append_assoc] at hd
  have hu : ("_" : String).data = ['_'] := rfl
  rw [hu] at hd
  simp only [List.cons_append, List.nil_append] at hd
  exact hne (String.ext (underscore_split_inj ip.data ipq.data t.data tq.data
    hip hipq hd))

/-- The head key of a duplicate-free tag list differs from every tail
key. -/
theorem head_key_not_in_tail (ip t : String) (ts : List String)
    (hnd : (t :: ts).Nodup) :
    ∀ tq ∈ ts, pointKey ip t ≠ pointKey ip tq := by
  intro tq htq hkey
  have ht : t = tq := pointKey_inj_tag ip t tq hkey
  exact (List.nodup_cons.mp hnd).1 (ht ▸ htq)

/-- Unfolding one response of `write_responses`. -/
theorem write_responses_cons {V : Type} (ip t : String) (ts : List String)
    (r : PlcResponse V) (rs : List (PlcResponse V))
    (dp : List (String × DVal V)) :
    write_responses ip (t :: ts) (r :: rs) dp
      = write_responses ip ts rs
          (dictInsert (pointKey ip t) (record_response r) dp) := rfl

/-- `write_responses` leaves keys outside the device's tag set
untouched. -/
theorem write_responses_frame {V : Type} (ip kq : String) :
    ∀ (tags : List String) (rs : List (PlcResponse V))
      (dp : List (String × DVal V)),
      (∀ t ∈ tags, kq ≠ pointKey ip t) →
      dictLookup kq (write_responses ip tags rs dp) = dictLookup kq dp := by
  intro tags
  induction tags with
  | nil => intro rs dp h; rfl
  | cons t ts ih =>
    intro rs dp h
    cases rs with
    | nil => rfl
    | cons r rsq =>
      rw [write_responses_cons]
      rw [ih rsq _ (fun tq htq => h tq (List.mem_cons_of_mem t htq))]
      exact dictLookup_insert_ne _ _ _ _ (h t (List.mem_cons_self t ts))

/-- `write_responses` stores response `j` under the key of tag `j`. -/
theorem write_responses_lookup {V : Type} (ip : String) :
    ∀ (tags : List String) (rs : List (PlcResponse V))
      (dp : List (String × DVal V)) (j : Nat) (hnd : tags.Nodup)
      (hj : j < tags.length) (hr : j < rs.length),
      dictLookup (pointKey ip (tags.get ⟨j, hj⟩))
          (write_responses ip tags rs dp)
        = some (record_response (rs.get ⟨j, hr⟩)) := by
  intro tags
  induction tags with
  | nil => intro rs dp j hnd hj hr; exact absurd hj (by simp)
  | cons t ts ih =>
    intro rs dp j hnd hj hr
    cases rs with
    | nil => exact absurd hr (by simp)
    | cons r rsq =>
      rw [write_responses_cons]
      cases j with
      | zero =>
        have hget : (t :: ts).get ⟨0, hj⟩ = t := rfl
        rw [hget]
        rw [write_responses_frame ip _ ts rsq _ (head_key_not_in_tail ip t ts hnd)]
        exact dictLookup_insert_self _ _ _
      | succ jq =>
        have := ih rsq (dictInsert (pointKey ip t) (record_response r) dp) jq
          (List.nodup_cons.mp hnd).2 (by simpa using hj) (by simpa using hr)
        simpa using this

/-- Unfolding one tag of `mark_all_failed`. -/
theorem mark_all_failed_cons {V : Type} (ip t : String) (ts : List String)
    (dp : List (String × DVal V)) :
    mark_all_failed ip (t :: ts) dp
      = mark_all_failed ip ts
          (dictInsert (pointKey ip t) (DVal.null : DVal V) dp) := rfl

/-- `mark_all_failed` leaves keys outside the device's tag set
untouched. -/
theorem mark_all_failed_frame {V : Type} (ip kq : String) :
    ∀ (tags : List String) (dp : List (String × DVal V)),
      (∀ t ∈ tags, kq ≠ pointKey ip t) →
      dictLookup kq (mark_all_failed ip tags dp) = dictLookup kq dp := by
  intro tags
  induction tags with
  | nil => intro dp h; rfl
  | cons t ts ih =>
    intro dp h
    rw [mark_all_failed_cons]
    rw [ih _ (fun tq htq => h tq (List.mem_cons_of_mem t htq))]
    exact dictLookup_insert_ne _ _ _ _ (h t (List.mem_cons_self t ts))

/-- `mark_all_failed` stores `None` under every tag key. -/
theorem mark_all_failed_lookup {V : Type} (ip : String) :
    ∀ (tags : List String) (dp : List (String × DVal V)) (j : Nat)
      (hnd : tags.Nodup) (hj : j < tags.length),
      dictLookup (pointKey ip (tags.get ⟨j, hj⟩)) (mark_all_failed ip tags dp)
        = some (DVal.null : DVal V) := by
  intro tags
  induction tags with
  | nil => intro dp j hnd hj; exact absurd hj (by simp)
  | cons t ts ih =>
    intro dp j hnd hj
    rw [mark_all_failed_cons]
    cases j with
    | zero =>
      have hget : (t :: ts).get ⟨0, hj⟩ = t := rfl
      rw [hget]
      rw [mark_all_failed_frame ip _ ts _ (head_key_not_in_tail ip t ts hnd)]
      exact dictLookup_insert_self _ _ _
    | succ jq =>
      have := ih (dictInsert (pointKey ip t) (DVal.null : DVal V) dp) jq
        (List.nodup_cons.mp hnd).2 (by simpa using hj)
      simpa using this

/-- The per-device retry loop stores, for every tag index, the value
described declaratively by the first exception-free attempt: its
response (value on success status, `None` otherwise), or `None` for
every tag when no attempt in the window succeeds. -/
theorem read_device_loop_lookup {V : Type} (ip : String) (tags : List String)
    (attempt : Nat → AttemptOutcome V) (hnd : tags.Nodup)
    (hlen : ∀ k rs, attempt k = AttemptOutcome.ok rs → rs.length = tags.length) :
    ∀ (fuel k : Nat) (dp : List (String × DVal V)) (j : Nat)
      (hj : j < tags.length), 0 < fuel →
      dictLookup (pointKey ip (tags.get ⟨j, hj⟩))
          (read_device_loop ip tags attempt fuel k dp)
        = some (match first_success attempt fuel k with
                | some rs =>
                  (match rs.get? j with
                   | some r => record_response r
                   | Option.none => DVal.null)
                | Option.none => DVal.null) := by
  intro fuel
  induction fuel with
  | zero => intro k dp j hj h0; exact absurd h0 (by omega)
  | succ f ih =>
    intro k dp j hj h0
    cases hk : attempt k with
    | ok rs =>
      have hrl : rs.length = tags.length := hlen k rs hk
      have hr : j < rs.length := by omega
      rw [read_device_loop, first_success, hk]
      dsimp only
      rw [write_responses_lookup ip tags rs dp j hnd hj hr,
        List.get?_eq_get hr]
    | failed pre =>
      rw [read_device_loop, first_success, hk]
      dsimp only
      cases f with
      | zero =>
        rw [if_pos rfl, first_success]
        exact mark_all_failed_lookup ip tags _ j hnd hj
      | succ f2 =>
        rw [if_neg (by omega)]
        exact ih (k + 1) (write_responses ip tags pre dp) j hj (by omega)

/-- The per-device retry loop leaves keys outside the device's tag set
untouched. -/
theorem read_device_loop_frame {V : Type} (ip kq : String)
    (tags : List String) (attempt : Nat → AttemptOutcome V)
    (h : ∀ t ∈ tags, kq ≠ pointKey ip t) :
    ∀ (fuel k : Nat) (dp : List (String × DVal V)),
      dictLookup kq (read_device_loop ip tags attempt fuel k dp)
        = dictLookup kq dp := by
  intro fuel
  induction fuel with
  | zero => intro k dp; rfl
  | succ f ih =>
    intro k dp
    cases hk : attempt k with
    | ok rs =>
      rw [read_device_loop, hk]
      dsimp only
      exact write_responses_frame ip kq tags rs dp h
    | failed pre =>
      rw [read_device_loop, hk]
      dsimp only
      cases f with
      | zero =>
        rw [if_pos rfl, mark_all_failed_frame ip kq tags _ h]
        exact write_responses_frame ip kq tags pre dp h
      | succ f2 =>
        rw [if_neg (by omega), ih (k + 1) (write_responses ip tags pre dp)]
        exact write_responses_frame ip kq tags pre dp h

/-- `read_device` value lemma, lifted over the empty-tag-list guard. -/
theorem read_device_lookup {V : Type} (ip : String) (tags : List String)
    (attempt : Nat → AttemptOutcome V) (hnd : tags.Nodup)
    (hlen : ∀ k rs, attempt k = AttemptOutcome.ok rs → rs.length = tags.length)
    (dp : List (String × DVal V)) (j : Nat) (hj : j < tags.length) :
    dictLookup (pointKey ip (tags.get ⟨j, hj⟩)) (read_device ip tags attempt dp)
      = some (match first_success attempt max_retries 0 with
              | some rs =>
                (match rs.get? j with
                 | some r => record_response r
                 | Option.none => DVal.null)
              | Option.none => DVal.null) := by
  cases tags with
  | nil => exact absurd hj (by simp)
  | cons t ts =>
    rw [read_device]
    simp only [List.isEmpty_cons, Bool.false_eq_true, if_false]
    exact read_device_loop_lookup ip (t :: ts) attempt hnd hlen max_retries 0
      dp j hj (by decide)

/-- `read_device` leaves keys outside the device's tag set untouched. -/
theorem read_device_frame {V : Type} (ip kq : String) (tags : List String)
    (attempt : Nat → AttemptOutcome V) (dp : List (String × DVal V))
    (h : ∀ t ∈ tags, kq ≠ pointKey ip t) :
    dictLookup kq (read_device ip tags attempt dp) = dictLookup kq dp := by
  rw [read_device]
  split_ifs
  · rfl
  · exact read_device_loop_frame ip kq tags attempt h max_retries 0 dp

/-- Devices whose tag sets do not contain a key leave that key
untouched across the whole fold of `_read_plc_data`. -/
theorem fold_devices_frame {V : Type} (tags_to_log : String → List String)
    (attempt : String → Nat → AttemptOutcome V) (kq : String) :
    ∀ (ips : List String) (dp : List (String × DVal V)),
      (∀ i ∈ ips, ∀ t ∈ tags_to_log i, kq ≠ pointKey i t) →
      dictLookup kq
          (ips.foldl (fun d i => read_device i (tags_to_log i) (attempt i) d) dp)
        = dictLookup kq dp := by
  intro ips
  induction ips with
  | nil => intro dp h; rfl
  | cons i rest ih =>
    intro dp h
    rw [List.foldl_cons]
    rw [ih _ (fun iq hi t ht => h iq (List.mem_cons_of_mem i hi) t ht)]
    exact read_device_frame i kq (tags_to_log i) (attempt i) dp
      (h i (List.mem_cons_self i rest))

/-- The device fold of `_read_plc_data` gives every configured point of
a configured device the value described by that device's first
exception-free attempt. -/
theorem fold_devices_lookup {V : Type} (tags_to_log : String → List String)
    (attempt : String → Nat → AttemptOutcome V) (ip : String) :
    ∀ (ips : List String) (dp : List (String × DVal V)),
      ip ∈ ips → ips.Nodup → (∀ i ∈ ips, ('_' : Char) ∉ i.data) →
      (tags_to_log ip).Nodup →
      (∀ k rs, attempt ip k = AttemptOutcome.ok rs →
        rs.length = (tags_to_log ip).length) →
      ∀ (j : Nat) (hj : j < (tags_to_log ip).length),
      dictLookup (pointKey ip ((tags_to_log ip).get ⟨j, hj⟩))
          (ips.foldl (fun d i => read_device i (tags_to_log i) (attempt i) d) dp)
        = some (match first_success (attempt ip) max_retries 0 with
                | some rs =>
                  (match rs.get? j with
                   | some r => record_response r
                   | Option.none => DVal.null)
                | Option.none => DVal.null) := by
  intro ips
  induction ips with
  | nil => intro dp hip; exact absurd hip (by simp)
  | cons i rest ih =>
    intro dp hip hnodup hus hnd hlen j hj
    rw [List.foldl_cons]
    rcases List.mem_cons.mp hip with heq | hmem
    · subst heq
      rw [fold_devices_frame tags_to_log attempt _ rest _ ?hfr]
      · exact read_device_lookup ip (tags_to_log ip) (attempt ip) hnd hlen dp j hj
      case hfr =>
        intro iq hq t ht hkey
        have hne : ip ≠ iq := fun he => (List.nodup_cons.mp hnodup).1 (he ▸ hq)
        exact pointKey_inj_ip ip iq _ t (hus ip (List.mem_cons_self ip rest))
          (hus iq (List.mem_cons_of_mem ip hq)) hne hkey
    · exact ih _ hmem (List.nodup_cons.mp hnodup).2
        (fun iq hi => hus iq (List.mem_cons_of_mem i hi)) hnd hlen j hj

/-- Claim C1: on a call of `_read_plc_data` in which the cancellation
signal is never set, the returned Sample binds the key `<ip>_<tag>` of
every configured device address and every tag configured for it: to the
read value when the first exception-free attempt reports "Success" for
that point, to `None` when it reports a non-success status, and to
`None` for every point of the device when all `max_retries` attempts
raise.  Hypotheses: addresses are distinct and contain no underscore
(IP addresses), the device's tag list is duplicate-free, and an
exception-free batched read returns one response per requested tag (the
pylogix `Read` contract for list arguments). -/
theorem claim_C1_read_plc_data (V : Type) (ips : List String)
    (tags_to_log : String → List String)
    (attempt : String → Nat → AttemptOutcome V) (ts : String) (ip : String)
    (hip : ip ∈ ips) (hnodup : ips.Nodup)
    (hus : ∀ i ∈ ips, ('_' : Char) ∉ i.data)
    (hnd : (tags_to_log ip).Nodup)
    (hlen : ∀ k rs, attempt ip k = AttemptOutcome.ok rs →
      rs.length = (tags_to_log ip).length)
    (j : Nat) (hj : j < (tags_to_log ip).length) :
    dictLookup (pointKey ip ((tags_to_log ip).get ⟨j, hj⟩))
        (read_plc_data ips tags_to_log attempt ts)
      = some (match first_success (attempt ip) max_retries 0 with
              | some rs =>
                (match rs.get? j with
                 | some r => record_response r
                 | Option.none => DVal.null)
              | Option.none => DVal.null) := by
  unfold read_plc_data
  exact fold_devices_lookup tags_to_log attempt ip ips _ hip hnodup hus hnd
    hlen j hj

/-- Witness for C1: one device with two configured tags; the first
attempt raises before any response, the second completes with one
successful point (value 5) and one point with a non-success status —
the Sample binds the first key to the value and the second to `None`. -/
theorem claim_C1_witness :
    (["10.0.0.1"] : List String).Nodup
    ∧ dictLookup "10.0.0.1_T1"
        (read_plc_data ["10.0.0.1"] (fun _ => ["T1", "T2"])
          (fun _ k => if k = 0 then AttemptOutcome.failed []
            else AttemptOutcome.ok [⟨"Success", (5 : Int)⟩, ⟨"Err", 0⟩]) "ts")
        = some (DVal.val (5 : Int))
    ∧ dictLookup "10.0.0.1_T2"
        (read_plc_data ["10.0.0.1"] (fun _ => ["T1", "T2"])
          (fun _ k => if k = 0 then AttemptOutcome.failed []
            else AttemptOutcome.ok [⟨"Success", (5 : Int)⟩, ⟨"Err", 0⟩]) "ts")
        = some (DVal.null : DVal Int) := by
  refine ⟨by decide, ?_, ?_⟩
  · exact claim_C1_read_plc_data Int ["10.0.0.1"] (fun _ => ["T1", "T2"])
      (fun _ k => if k = 0 then AttemptOutcome.failed []
        else AttemptOutcome.ok [⟨"Success", (5 : Int)⟩, ⟨"Err", 0⟩]) "ts"
      "10.0.0.1" (by decide) (by decide) (by decide) (by decide)
      (fun k rs h => by
        dsimp only at h ⊢
        split at h
        · exact absurd h (by simp)
        · cases h
          rfl)
      0 (by decide)
  · exact claim_C1_read_plc_data Int ["10.0.0.1"] (fun _ => ["T1", "T2"])
      (fun _ k => if k = 0 then AttemptOutcome.failed []
        else AttemptOutcome.ok [⟨"Success", (5 : Int)⟩, ⟨"Err", 0⟩]) "ts"
      "10.0.0.1" (by decide) (by decide) (by decide) (by decide)
      (fun k rs h => by
        dsimp only at h ⊢
        split at h
        · exact absurd h (by simp)
        · cases h
          rfl)
      1 (by decide)

/-! ## Name and file-system lemmas for the retention sweep -/

/-- A glob-matched raw name splits into its stem and the `.csv`
suffix. -/
theorem raw_name_split (n : String) (h : is_raw_log n = true) :
    n.data = n.data.take (n.data.length - 4) ++ ".csv".data := by
  unfold is_raw_log at h
  simp only [Bool.and_eq_true, decide_eq_true_eq] at h
  conv_lhs => rw [← List.take_append_drop (n.data.length - 4) n.data]
  rw [h.2]

/-- The data of a compressed name. -/
theorem gz_data (m : String) :
    (gz_name m).data = (csv_stem m).data ++ ".csv.gz".data := by
  unfold gz_name
  rw [String.data_append]

/-- A glob-matched raw name (ending `.csv`) is never a compressed name
(ending `.csv.gz`). -/
theorem raw_ne_gz (n m : String) (h : is_raw_log n = true) : n ≠ gz_name m := by
  intro he
  have h1 : n.data.reverse.head? = some 'v' := by
    rw [raw_name_split n h, List.reverse_append]
    rfl
  have h2 : (gz_name m).data.reverse.head? = some 'z' := by
    rw [gz_data, List.reverse_append]
    rfl
  rw [he, h2] at h1
  exact absurd h1 (by decide)

/-- Compression names of distinct raw names are distinct. -/
theorem gz_inj_on_raw (n1 n2 : String) (h1 : is_raw_log n1 = true)
    (h2 : is_raw_log n2 = true) (he : gz_name n1 = gz_name n2) : n1 = n2 := by
  have hd := congrArg String.data he
  rw [gz_data, gz_data] at hd
  have hstem : (csv_stem n1).data = (csv_stem n2).data :=
    List.append_cancel_right hd
  apply String.ext
  rw [raw_name_split n1 h1, raw_name_split n2 h2]
  have e1 : n1.data.take (n1.data.length - 4) = (csv_stem n1).data := rfl
  have e2 : n2.data.take (n2.data.length - 4) = (csv_stem n2).data := rfl
  rw [e1, e2, hstem]

/-- Membership in a deletion. -/
theorem mem_cfs_delete {l : List CFile} {n : String} {x : CFile} :
    x ∈ cfs_delete l n ↔ x ∈ l ∧ x.name ≠ n := by
  unfold cfs_delete
  rw [List.mem_filter]
  simp

/-- Membership in a creation. -/
theorem mem_cfs_create {l : List CFile} {n : String} {m : Int} {x : CFile} :
    x ∈ cfs_create l n m ↔ x ∈ l ∨ x = ⟨n, m⟩ := by
  unfold cfs_create
  simp

/-- A name is absent exactly when no file carries it. -/
theorem cfs_exists_eq_false {l : List CFile} {n : String} :
    cfs_exists l n = false ↔ ∀ y ∈ l, y.name ≠ n := by
  unfold cfs_exists
  rw [List.any_eq_false]
  simp

/-- A name is present exactly when some file carries it. -/
theorem cfs_exists_eq_true {l : List CFile} {n : String} :
    cfs_exists l n = true ↔ ∃ y ∈ l, y.name = n := by
  unfold cfs_exists
  rw [List.any_eq_true]
  simp

/-- The mtime of a file appended behind entries with other names. -/
theorem cfs_mtime_append_last (l : List CFile) (n : String) (m : Int)
    (h : ∀ y ∈ l, y.name ≠ n) : cfs_mtime (l ++ [⟨n, m⟩]) n = some m := by
  unfold cfs_mtime
  rw [List.find?_append]
  have hnone : l.find? (fun f => f.name = n) = Option.none := by
    rw [List.find?_eq_none]
    intro x hx
    simpa using h x hx
  rw [hnone]
  simp [List.find?]

/-- Everything in the result of one sweep step is either an original
file or the compressed copy the step wrote. -/
theorem cleanup_step_sub (now c : Int) (fs2 : List CFile) (f x : CFile)
    (hx : x ∈ cleanup_step now c fs2 f) :
    x ∈ fs2 ∨ x.name = gz_name f.name := by
  have hbase : ∀ y ∈ fs2, y ∈ fs2 ∨ y.name = gz_name f.name :=
    fun y hy => Or.inl hy
  have hcreate : ∀ y ∈ cfs_create fs2 (gz_name f.name) now,
      y ∈ fs2 ∨ y.name = gz_name f.name := by
    intro y hy
    rcases mem_cfs_create.mp hy with h | h
    · exact Or.inl h
    · exact Or.inr (by rw [h])
  have hdel : ∀ (l : List CFile) (n : String),
      (∀ y ∈ l, y ∈ fs2 ∨ y.name = gz_name f.name) →
      ∀ y ∈ cfs_delete l n, y ∈ fs2 ∨ y.name = gz_name f.name :=
    fun l n h y hy => h y (mem_cfs_delete.mp hy).1
  have hfs1 : ∀ y ∈ (if cfs_exists fs2 (gz_name f.name) = true then fs2
      else cfs_delete (cfs_create fs2 (gz_name f.name) now) f.name),
      y ∈ fs2 ∨ y.name = gz_name f.name := by
    split_ifs
    · exact hbase
    · exact hdel _ _ hcreate
  unfold cleanup_step at hx
  split at hx
  · exact Or.inl hx
  · split at hx
    · dsimp only at hx
      split at hx
      · split at hx
        · exact hdel _ _ hfs1 x hx
        · exact hfs1 x hx
      · exact hfs1 x hx
    · exact Or.inl hx

/-- A file whose name is neither the processed raw file's nor its
compressed copy's survives one sweep step. -/
theorem cleanup_step_keep (now c : Int) (fs2 : List CFile) (f x : CFile)
    (hx : x ∈ fs2) (hn1 : x.name ≠ f.name) (hn2 : x.name ≠ gz_name f.name) :
    x ∈ cleanup_step now c fs2 f := by
  unfold cleanup_step
  split
  · exact hx
  · split
    · dsimp only
      have hx1 : x ∈ (if cfs_exists fs2 (gz_name f.name) = true then fs2
          else cfs_delete (cfs_create fs2 (gz_name f.name) now) f.name) := by
        split_ifs with hex
        · exact hx
        · exact mem_cfs_delete.mpr ⟨mem_cfs_create.mpr (Or.inl hx), hn1⟩
      split
      · split
        · exact mem_cfs_delete.mpr ⟨hx1, hn2⟩
        · exact hx1
      · exact hx1
    · exact hx

/-- A file deleted by one sweep step names the processed raw file or
its compressed copy, and the processed file's recovered date is out of
retention. -/
theorem cleanup_step_del (now c : Int) (fs2 : List CFile) (f x : CFile)
    (hx : x ∈ fs2) (hnx : x ∉ cleanup_step now c fs2 f) :
    (∃ t, parse_file_date f.name = some t ∧ t < c)
    ∧ (x.name = f.name ∨ x.name = gz_name f.name) := by
  rcases hp : parse_file_date f.name with _ | t
  · exact absurd (by unfold cleanup_step; rw [hp]; exact hx) hnx
  · by_cases htc : t < c
    · refine ⟨⟨t, rfl, htc⟩, ?_⟩
      by_contra hno
      push_neg at hno
      exact hnx (cleanup_step_keep now c fs2 f x hx hno.1 hno.2)
    · refine absurd ?_ hnx
      unfold cleanup_step
      rw [hp]
      dsimp only
      rw [if_neg htc]
      exact hx

/-- One sweep step on an old raw file whose compressed copy is absent:
it writes the copy (with the sweep's own mtime, which is inside the
retention window) and deletes the original. -/
theorem cleanup_step_process (now c : Int) (fs2 : List CFile) (f : CFile)
    (hraw : is_raw_log f.name = true) (t : Int)
    (hp : parse_file_date f.name = some t) (htc : t < c)
    (hgz : ∀ y ∈ fs2, y.name ≠ gz_name f.name) (hnc : ¬ now < c) :
    cleanup_step now c fs2 f
      = cfs_delete fs2 f.name ++ [⟨gz_name f.name, now⟩] := by
  have hgzne : gz_name f.name ≠ f.name :=
    fun he => raw_ne_gz f.name f.name hraw he.symm
  have hex : cfs_exists fs2 (gz_name f.name) = false :=
    cfs_exists_eq_false.mpr hgz
  have hfs1 : cfs_delete (cfs_create fs2 (gz_name f.name) now) f.name
      = cfs_delete fs2 f.name ++ [⟨gz_name f.name, now⟩] := by
    unfold cfs_create cfs_delete
    rw [List.filter_append]
    congr 1
    simp [hgzne]
  have hmt : cfs_mtime (cfs_delete fs2 f.name ++ [⟨gz_name f.name, now⟩])
      (gz_name f.name) = some now :=
    cfs_mtime_append_last _ _ _
      (fun y hy => hgz y (mem_cfs_delete.mp hy).1)
  unfold cleanup_step
  rw [hp]
  dsimp only
  rw [if_pos htc]
  rw [hex]
  simp only [Bool.false_eq_true, if_false]
  rw [hfs1, hmt]
  dsimp only
  rw [if_neg hnc]

/-- Unfolding `cleanup_old_data` into its glob-and-fold form. -/
theorem cleanup_old_data_eq (fs : List CFile) (now retention_days : Int) :
    cleanup_old_data fs now retention_days
      = (fs.filter (fun g => is_raw_log g.name)).foldl
          (cleanup_step now (now - retention_days * 86400)) fs := rfl

/-- Everything present after the sweep is an original file or the
compressed copy of some globbed file. -/
theorem cleanup_fold_sub (now c : Int) :
    ∀ (L fs2 : List CFile) (x : CFile),
      x ∈ L.foldl (cleanup_step now c) fs2 →
      x ∈ fs2 ∨ ∃ f ∈ L, x.name = gz_name f.name := by
  intro L
  induction L with
  | nil => intro fs2 x hx; exact Or.inl hx
  | cons f L2 ih =>
    intro fs2 x hx
    rw [List.foldl_cons] at hx
    rcases ih _ x hx with hin | ⟨fq, hfq, hname⟩
    · rcases cleanup_step_sub now c fs2 f x hin with h | h
      · exact Or.inl h
      · exact Or.inr ⟨f, List.mem_cons_self f L2, h⟩
    · exact Or.inr ⟨fq, List.mem_cons_of_mem f hfq, hname⟩

/-- A file named after no globbed file and no compressed copy of one
survives the sweep unchanged. -/
theorem cleanup_fold_keep (now c : Int) :
    ∀ (L fs2 : List CFile) (x : CFile),
      x ∈ fs2 → (∀ f ∈ L, x.name ≠ f.name ∧ x.name ≠ gz_name f.name) →
      x ∈ L.foldl (cleanup_step now c) fs2 := by
  intro L
  induction L with
  | nil => intro fs2 x hx _; exact hx
  | cons f L2 ih =>
    intro fs2 x hx h
    rw [List.foldl_cons]
    exact ih _ x
      (cleanup_step_keep now c fs2 f x hx (h f (List.mem_cons_self f L2)).1
        (h f (List.mem_cons_self f L2)).2)
      (fun fq hfq => h fq (List.mem_cons_of_mem f hfq))

/-- A file the sweep deletes names a globbed file with an
out-of-retention recovered date, or that file's compressed copy. -/
theorem cleanup_fold_del (now c : Int) :
    ∀ (L fs2 : List CFile) (x : CFile),
      x ∈ fs2 → x ∉ L.foldl (cleanup_step now c) fs2 →
      ∃ f ∈ L, (∃ t, parse_file_date f.name = some t ∧ t < c)
        ∧ (x.name = f.name ∨ x.name = gz_name f.name) := by
  intro L
  induction L with
  | nil => intro fs2 x hx hnx; exact absurd hx hnx
  | cons f L2 ih =>
    intro fs2 x hx hnx
    rw [List.foldl_cons] at hnx
    by_cases hx1 : x ∈ cleanup_step now c fs2 f
    · obtain ⟨fq, hfq, hrest⟩ := ih _ x hx1 hnx
      exact ⟨fq, List.mem_cons_of_mem f hfq, hrest⟩
    · obtain ⟨hold, hname⟩ := cleanup_step_del now c fs2 f x hx hx1
      exact ⟨f, List.mem_cons_self f L2, hold, hname⟩

/-- The sweep compresses an old raw file whose compressed copy is
absent and deletes the original; the fresh copy (mtime = sweep time)
survives the whole sweep. -/
theorem cleanup_old_raw_processed (fs : List CFile) (now retention_days : Int)
    (hnd : (fs.map CFile.name).Nodup) (hr : 0 ≤ retention_days)
    (f : CFile) (hf : f ∈ fs) (hraw : is_raw_log f.name = true) (t : Int)
    (hp : parse_file_date f.name = some t)
    (htc : t < now - retention_days * 86400)
    (hgzmiss : cfs_exists fs (gz_name f.name) = false) :
    cfs_exists (cleanup_old_data fs now retention_days) f.name = false
    ∧ cfs_exists (cleanup_old_data fs now retention_days)
        (gz_name f.name) = true := by
  rw [cleanup_old_data_eq]
  set c := now - retention_days * 86400 with hc
  have hnc : ¬ now < c := by omega
  set matched := fs.filter (fun g => is_raw_log g.name) with hmdef
  have hfm : f ∈ matched := by
    rw [hmdef]
    exact List.mem_filter.mpr ⟨hf, hraw⟩
  have hmraw : ∀ fq ∈ matched, is_raw_log fq.name = true := by
    intro fq h
    rw [hmdef] at h
    exact (List.mem_filter.mp h).2
  have hmnd : (matched.map CFile.name).Nodup := by
    refine List.Nodup.sublist ?_ hnd
    rw [hmdef]
    exact List.Sublist.map CFile.name (List.filter_sublist fs)
  obtain ⟨pre, post, hsplitm⟩ := List.append_of_mem hfm
  have hprem : ∀ fq ∈ pre, fq ∈ matched := by
    intro fq h
    rw [hsplitm]
    exact List.mem_append_left _ h
  have hpostm : ∀ fq ∈ post, fq ∈ matched := by
    intro fq h
    rw [hsplitm]
    exact List.mem_append_right _ (List.mem_cons_of_mem f h)
  have hmnd2 := hmnd
  rw [hsplitm, List.map_append, List.map_cons, List.nodup_append] at hmnd2
  have hpost_ne : ∀ fq ∈ post, fq.name ≠ f.name := by
    intro fq hq he
    have hn := (List.nodup_cons.mp hmnd2.2.1).1
    exact hn (by rw [← he]; exact List.mem_map_of_mem CFile.name hq)
  have hpre_ne : ∀ fq ∈ pre, fq.name ≠ f.name := by
    intro fq hq he
    exact hmnd2.2.2 (List.mem_map_of_mem CFile.name hq)
      (by rw [he]; exact List.mem_cons_self _ _)
  rw [hsplitm, List.foldl_append, List.foldl_cons]
  have hgz0 : ∀ y ∈ pre.foldl (cleanup_step now c) fs,
      y.name ≠ gz_name f.name := by
    intro y hy he
    rcases cleanup_fold_sub now c pre fs y hy with hin | ⟨fq, hfq, hname⟩
    · exact (cfs_exists_eq_false.mp hgzmiss) y hin he
    · have hgeq : gz_name f.name = gz_name fq.name := he.symm.trans hname
      have : f.name = fq.name :=
        gz_inj_on_raw f.name fq.name hraw (hmraw fq (hprem fq hfq)) hgeq
      exact hpre_ne fq hfq this.symm
  rw [cleanup_step_process now c _ f hraw t hp htc hgz0 hnc]
  constructor
  · rw [cfs_exists_eq_false]
    intro y hy he
    rcases cleanup_fold_sub now c post _ y hy with hin | ⟨fq, hfq, hname⟩
    · rcases List.mem_append.mp hin with h1 | h2
      · exact (mem_cfs_delete.mp h1).2 he
      · have hyeq : y = ⟨gz_name f.name, now⟩ := List.mem_singleton.mp h2
        exact raw_ne_gz f.name f.name hraw
          (he.symm.trans (congrArg CFile.name hyeq))
    · exact raw_ne_gz f.name fq.name hraw (he.symm.trans hname)
  · rw [cfs_exists_eq_true]
    refine ⟨⟨gz_name f.name, now⟩, ?_, rfl⟩
    apply cleanup_fold_keep
    · exact List.mem_append_right _ (List.mem_singleton.mpr rfl)
    · intro fq hfq
      constructor
      · exact fun he =>
          raw_ne_gz fq.name f.name (hmraw fq (hpostm fq hfq)) he.symm
      · exact fun he => hpost_ne fq hfq
          (gz_inj_on_raw f.name fq.name hraw (hmraw fq (hpostm fq hfq)) he).symm

/-- Claim C3 counterexample: a directory holding only an
already-compressed file `plc_data_20200101_000000.csv.gz` whose mtime
(epoch 0) is far older than the cutoff of a sweep at epoch 1700000000
with `retention_days = 30` — the sweep leaves it untouched, because the
glob `plc_data_*.csv` never matches `*.csv.gz` files, while the claim
requires it to be deleted outright. -/
theorem claim_C3_counterexample :
    cleanup_old_data [⟨"plc_data_20200101_000000.csv.gz", 0⟩] 1700000000 30
      = [⟨"plc_data_20200101_000000.csv.gz", 0⟩]
    ∧ (0 : Int) < 1700000000 - 30 * 86400 := by
  constructor
  · rfl
  · decide

/-- Claim C3 amended: over one log directory with distinct file names
and a non-negative retention window, one sweep of `cleanup_old_data`
(a) compresses every globbed raw `plc_data_*.csv` file whose
filename-recovered timestamp is out of retention and whose compressed
copy does not yet exist, deleting the original after writing the copy
(no non-emptiness verification is performed, and the fresh copy —
mtime = sweep time — is itself retained); (b) deletes nothing except
such out-of-retention raw files and files bearing their compressed
names — in particular an already-compressed file with no raw partner in
the directory is never deleted, no matter how old; and (c) every
globbed raw file whose recovered date is inside retention (or whose
name yields no date) is left in place. -/
theorem claim_C3_retention_sweep (fs : List CFile) (now retention_days : Int)
    (hnd : (fs.map CFile.name).Nodup) (hr : 0 ≤ retention_days) :
    (∀ f ∈ fs, is_raw_log f.name = true →
      ∀ t, parse_file_date f.name = some t →
        t < now - retention_days * 86400 →
        cfs_exists fs (gz_name f.name) = false →
        cfs_exists (cleanup_old_data fs now retention_days) f.name = false
        ∧ cfs_exists (cleanup_old_data fs now retention_days)
            (gz_name f.name) = true)
    ∧ (∀ x ∈ fs, x ∉ cleanup_old_data fs now retention_days →
        ∃ f ∈ fs, is_raw_log f.name = true
          ∧ ∃ t, parse_file_date f.name = some t
              ∧ t < now - retention_days * 86400
              ∧ (x.name = f.name ∨ x.name = gz_name f.name))
    ∧ (∀ x ∈ fs, is_raw_log x.name = true →
        (∀ t, parse_file_date x.name = some t →
          ¬ t < now - retention_days * 86400) →
        x ∈ cleanup_old_data fs now retention_days) := by
  have hB : ∀ x ∈ fs, x ∉ cleanup_old_data fs now retention_days →
      ∃ f ∈ fs, is_raw_log f.name = true
        ∧ ∃ t, parse_file_date f.name = some t
            ∧ t < now - retention_days * 86400
            ∧ (x.name = f.name ∨ x.name = gz_name f.name) := by
    intro x hx hnx
    rw [cleanup_old_data_eq] at hnx
    obtain ⟨f, hfm, ⟨t, hpt, htc⟩, hname⟩ :=
      cleanup_fold_del now (now - retention_days * 86400) _ fs x hx hnx
    exact ⟨f, (List.mem_filter.mp hfm).1, (List.mem_filter.mp hfm).2,
      t, hpt, htc, hname⟩
  refine ⟨?_, hB, ?_⟩
  · intro f hf hraw t hp htc hgz
    exact cleanup_old_raw_processed fs now retention_days hnd hr f hf hraw
      t hp htc hgz
  · intro x hx hxraw hyoung
    by_contra hno
    obtain ⟨f, hfm, hfraw, t, hpt, htc, hname⟩ := hB x hx hno
    rcases hname with h1 | h2
    · have hxf : x = f := List.inj_on_of_nodup_map hnd hx hfm h1
      exact hyoung t (by rw [hxf]; exact hpt) htc
    · exact raw_ne_gz x.name f.name hxraw h2

/-- Witness for the amended C3: a directory with one out-of-retention
raw file (2020) and one in-retention raw file (2099), swept at epoch
1700000000 with a 30-day window: the old file is compressed and
removed, its fresh copy exists, and the young file survives. -/
theorem claim_C3_witness :
    (([⟨"plc_data_20200101_000000.csv", 1577836800⟩,
      ⟨"plc_data_20990101_000000.csv", 4070908800⟩] : List CFile).map
        CFile.name).Nodup
    ∧ (cfs_exists (cleanup_old_data
          [⟨"plc_data_20200101_000000.csv", 1577836800⟩,
           ⟨"plc_data_20990101_000000.csv", 4070908800⟩] 1700000000 30)
        "plc_data_20200101_000000.csv" = false
      ∧ cfs_exists (cleanup_old_data
          [⟨"plc_data_20200101_000000.csv", 1577836800⟩,
           ⟨"plc_data_20990101_000000.csv", 4070908800⟩] 1700000000 30)
        (gz_name "plc_data_20200101_000000.csv") = true)
    ∧ (⟨"plc_data_20990101_000000.csv", 4070908800⟩ : CFile)
        ∈ cleanup_old_data
          [⟨"plc_data_20200101_000000.csv", 1577836800⟩,
           ⟨"plc_data_20990101_000000.csv", 4070908800⟩] 1700000000 30 :=
  ⟨by decide,
   (claim_C3_retention_sweep
      [⟨"plc_data_20200101_000000.csv", 1577836800⟩,
       ⟨"plc_data_20990101_000000.csv", 4070908800⟩] 1700000000 30
      (by decide) (by decide)).1
     ⟨"plc_data_20200101_000000.csv", 1577836800⟩ (by decide) (by decide)
     1577836800 (by decide) (by decide) (by decide),
   (claim_C3_retention_sweep
      [⟨"plc_data_20200101_000000.csv", 1577836800⟩,
       ⟨"plc_data_20990101_000000.csv", 4070908800⟩] 1700000000 30
      (by decide) (by decide)).2.2
     ⟨"plc_data_20990101_000000.csv", 4070908800⟩ (by decide) (by decide)
     (fun t h => by
       have he : parse_file_date "plc_data_20990101_000000.csv"
           = some 4070908800 := by decide
       rw [he] at h
       cases h
       decide)⟩

end PLCLogger
